import Mathlib

/-!
Verification of the sandboxed visualization pipeline in
`src/agents/visualization_agent.py`.

Python strings are modelled as lists of characters (`Str`), the result of
`os.walk` over the sandbox directory as a list of entries (directory path
relative to the sandbox root, together with the file names it holds), and
the outcome dictionaries of the agent's methods as Lean structures with
optional fields for keys that are present only on some branches.
-/

namespace VizAgent

/-- A Python string, modelled as its list of characters. -/
abbrev Str : Type := List Char

/-- Conversion from a Lean string literal to the model. -/
def str (s : String) : Str := s.data

/-- `os.path.isabs` for POSIX paths: absolute iff it starts with a slash. -/
def isAbs (p : Str) : Bool := p.head? == some '/'

/-- `os.path.join a b` for a single extra component `b`, following
`posixpath.join`: an absolute `b` replaces `a`; otherwise a slash is
inserted unless `a` is empty or already ends with one. -/
def pjoin (a b : Str) : Str :=
  if isAbs b then b
  else if a = [] ∨ a.getLast? = some '/' then a ++ b
  else a ++ '/' :: b

/-- `os.path.basename`: the part after the final slash. -/
def basename (p : Str) : Str :=
  p.foldl (fun acc c => if c = '/' then [] else acc ++ [c]) []

/-- `str.lower`, character by character. -/
def lowerStr (s : Str) : Str := s.map Char.toLower

/-- The digit characters of a string, in order (the generator expression
`''.join(ch for ch in base if ch.isdigit())`). -/
def digitsOf (s : Str) : Str := s.filter Char.isDigit

/-- Decimal value of a digit string, as computed by Python's `int`. -/
def digitsToNat (s : Str) : Nat := s.foldl (fun a c => a * 10 + (c.toNat - 48)) 0

/-- `graph_sort_key` from `execute_visualization_script`: the integer
formed by concatenating every digit of the basename, or `0` if the
basename has no digits. -/
def graph_sort_key (p : Str) : Nat :=
  if digitsOf (basename p) = [] then 0 else digitsToNat (digitsOf (basename p))

/-- The tuple `preferred_exts` of recognized output extensions. -/
def preferred_exts : List Str :=
  [str ".png", str ".svg", str ".html", str ".jpg", str ".jpeg"]

/-- `s.endswith(preferred_exts)`: ends with one of the recognized
extensions. -/
def endsWithAny (s : Str) : Bool := preferred_exts.any (fun e => e.isSuffixOf s)

/-- One `os.walk` entry: the directory's path relative to the sandbox root
(`[]` for the sandbox root itself) and the file names it holds. -/
abbrev WalkEntry : Type := Str × List Str

/-- The full `os.walk` output over the sandbox directory. -/
abbrev Walk : Type := List WalkEntry

/-- The absolute root directory of a walk entry, as `os.walk` reports it. -/
def absRoot (sandbox rel : Str) : Str := if rel = [] then sandbox else pjoin sandbox rel

/-- `os.path.exists` for a path directly under the sandbox root, read off
the walk: the root entry lists that file name. -/
def existsTop (w : Walk) (name : Str) : Bool :=
  w.any (fun e => e.1.isEmpty && e.2.contains name)

/-- The first scan pass: for each extension in priority order, if
`main<ext>` exists at the sandbox root it is appended and the loop breaks.
The result is the empty list or a single path. -/
def mainFiles (sandbox : Str) (w : Walk) : List Str :=
  match preferred_exts.find? (fun ext => existsTop w (str "main" ++ ext)) with
  | some ext => [pjoin sandbox (str "main" ++ ext)]
  | none => []

/-- Condition of the second scan pass: the lowercased file name starts
with `graph` and ends with a recognized extension. -/
def isGraphName (f : Str) : Bool :=
  (str "graph").isPrefixOf (lowerStr f) && endsWithAny (lowerStr f)

/-- The second pass's candidate list, in walk order. -/
def graphCandidates (sandbox : Str) (w : Walk) : List Str :=
  w.foldr (fun e rest => (e.2.filter isGraphName).map (pjoin (absRoot sandbox e.1)) ++ rest) []

/-- Comparison by `graph_sort_key`, the key of `list.sort`. -/
def keyLe (a b : Str) : Prop := graph_sort_key a ≤ graph_sort_key b

instance : DecidableRel keyLe :=
  fun a b => inferInstanceAs (Decidable (graph_sort_key a ≤ graph_sort_key b))

instance : IsTotal Str keyLe :=
  ⟨fun a b => Nat.le_total (graph_sort_key a) (graph_sort_key b)⟩

instance : IsTrans Str keyLe := ⟨fun _ _ _ => Nat.le_trans⟩

/-- `graph_candidates.sort(key=graph_sort_key)`: Python's sort is stable,
and a stable sort by a key is uniquely determined, so insertion sort with
`keyLe` computes the same list. -/
def sortedGraphCandidates (sandbox : Str) (w : Walk) : List Str :=
  List.insertionSort keyLe (graphCandidates sandbox w)

/-- The third, catch-all scan pass, in walk order.  Note that the source
joins the file name with `sandbox_dir`, not with the entry's root. -/
def catchAllFiles (sandbox : Str) (w : Walk) : List Str :=
  w.foldr (fun e rest =>
    (e.2.filter (fun f => endsWithAny (lowerStr f))).map
      (fun f => if isAbs f then f else pjoin sandbox f) ++ rest) []

/-- `if p not in generated_files: generated_files.append(p)`. -/
def addNew (acc : List Str) (p : Str) : List Str := if p ∈ acc then acc else acc ++ [p]

/-- Appending a whole candidate list through the membership guard. -/
def addAllNew (acc : List Str) (ps : List Str) : List Str := ps.foldl addNew acc

/-- The `generated_files` list assembled by the three scan passes of
`execute_visualization_script`. -/
def generatedFiles (sandbox : Str) (w : Walk) : List Str :=
  addAllNew (addAllNew (mainFiles sandbox w) (sortedGraphCandidates sandbox w))
    (catchAllFiles sandbox w)

/-- Python's default `str.strip` character class (ASCII whitespace). -/
def pyIsSpace (c : Char) : Bool :=
  c == ' ' || c == '\t' || c == '\n' || c == '\r' || c == '\x0b' || c == '\x0c'

/-- `str.strip()`: remove whitespace from both ends. -/
def pyStrip (s : Str) : Str :=
  ((s.dropWhile pyIsSpace).reverse.dropWhile pyIsSpace).reverse

/-- Python's `int(s)` on a string: optional surrounding whitespace, an
optional sign, then a non-empty run of digits; anything else raises
`ValueError`, modelled by `none`. -/
def parsePyInt (s : Str) : Option Int :=
  match pyStrip s with
  | '+' :: ds => if ds ≠ [] ∧ ds.all Char.isDigit then some (digitsToNat ds) else none
  | '-' :: ds => if ds ≠ [] ∧ ds.all Char.isDigit then some (-(digitsToNat ds : Int)) else none
  | ds => if ds ≠ [] ∧ ds.all Char.isDigit then some (digitsToNat ds) else none

/-- `int(os.getenv("SANDBOX_TIMEOUT", "30"))`: the wall-clock timeout
handed to `subprocess.run`, read from the environment with the string
default `"30"`; `none` when `int` raises. -/
def sandboxTimeout (env : Option Str) : Option Int := parsePyInt (env.getD (str "30"))

/-- Result of `subprocess.run` on the staged script: either the child
completed with an exit status and captured streams, or
`subprocess.TimeoutExpired` was raised (whose captured partial streams the
handler ignores). -/
inductive ProcResult where
  | completed (returncode : Int) (stdout stderr : Str) : ProcResult
  | timedOut (stdout stderr : Str) : ProcResult
deriving DecidableEq

/-- The dictionary returned by `execute_visualization_script`; keys absent
on a branch are `none`. -/
structure ExecOutcome where
  success : Bool
  stdout : Option Str
  stderr : Option Str
  generated_files : List Str
  script_path : Option Str
  return_code : Option Int
  error : Option Str
deriving DecidableEq

/-- The timeout branch's error message. -/
def timeoutMsg : Str := str "Timeout při spuštění skriptu"

/-- The generic exception branch's error message. -/
def execErrMsg (e : Str) : Str := str "Chyba při spuštění skriptu: " ++ e

/-- The `ValueError` text raised by `int` on a malformed literal. -/
def invalidIntMsg (s : Str) : Str :=
  str "invalid literal for int() with base 10: '" ++ s ++ str "'"

/-- `execute_visualization_script`, after staging.  `staging` is `some msg`
when copying the dataset or writing the script raised (the generic
`except Exception` branch), `runProc` gives the subprocess outcome as a
function of the timeout it is invoked with, and `w` is the walk of the
sandbox directory after the run. -/
def execute_visualization_script (sandbox : Str) (env : Option Str)
    (staging : Option Str) (runProc : Int → ProcResult) (w : Walk) : ExecOutcome :=
  match staging with
  | some msg => ⟨false, none, none, [], none, none, some (execErrMsg msg)⟩
  | none =>
    match sandboxTimeout env with
    | none =>
      ⟨false, none, none, [], none, none,
        some (execErrMsg (invalidIntMsg (pyStrip ((env.getD (str "30"))))))⟩
    | some t =>
      match runProc t with
      | .timedOut _ _ => ⟨false, none, none, [], none, none, some timeoutMsg⟩
      | .completed rc out err =>
        ⟨rc == 0, some out, some err, generatedFiles sandbox w,
          some (pjoin sandbox (str "visualization.py")), some rc, none⟩

/-- One call to the text-generation service: either a list of content
blocks (each modelled by its text) or a raised transport/service error. -/
inductive ServiceResult where
  | ok (content : List Str) : ServiceResult
  | failed (msg : Str) : ServiceResult
deriving DecidableEq

/-- The early-return message when `LLM_MODEL` is unset or empty. -/
def modelMissingMsg : Str := str "# Chyba: LLM_MODEL není nastaveno v .env/Secrets"

/-- The `except` branch's message in `generate_visualization_script`. -/
def genErrMsg (e : Str) : Str := str "# Chyba při generování skriptu: " ++ e

/-- `str(IndexError)` text for `response.content[0]` on an empty list. -/
def indexErrText : Str := str "list index out of range"

/-- Bounded scan implementing `str.find(sub, i)`: try indices
`i, i+1, ...` while they stay within the string. -/
def findFromAux (s pat : Str) : Nat → Nat → Option Nat
  | i, 0 => if pat.isPrefixOf (s.drop i) then some i else none
  | i, fuel + 1 =>
    if pat.isPrefixOf (s.drop i) then some i else findFromAux s pat (i + 1) fuel

/-- `s.find(pat, i)`: the least index `≥ i` where `pat` occurs, `none` for
Python's `-1`. -/
def findFrom (s pat : Str) (i : Nat) : Option Nat := findFromAux s pat i (s.length - i)

/-- The slice `s[a:b]` (for the in-range indices produced by `find`). -/
def pySlice (s : Str) (a b : Nat) : Str := (s.drop a).take (b - a)

/-- The closing fence / generic marker searched for by the extractor. -/
def fenceStr : Str := str "```"

/-- The python-tagged opening marker. -/
def pyMarker : Str := str "```python"

/-- The backtick character, first character of a fence. -/
def tick : Char := fenceStr.getD 0 ' '

/-- Shared tail of both extraction branches: take from `start` to the next
fence if one exists, else to the end of the text, and strip. -/
def extractAfter (s : Str) (start : Nat) : Str :=
  match findFrom s fenceStr start with
  | some e => pyStrip (pySlice s start e)
  | none => pyStrip (s.drop start)

/-- The markdown-deblocking logic of `generate_visualization_script`:
prefer a `python`-tagged fence, fall back to a generic fence, else return
the raw text. -/
def extractScript (s : Str) : Str :=
  match findFrom s pyMarker 0 with
  | some i => extractAfter s (i + pyMarker.length)
  | none =>
    match findFrom s fenceStr 0 with
    | some i => extractAfter s (i + fenceStr.length)
    | none => s

/-- `generate_visualization_script`, as a function of the `LLM_MODEL`
environment value and the service call's result. -/
def generate_visualization_script (model : Option Str) (svc : ServiceResult) : Str :=
  if model.getD [] = [] then modelMissingMsg
  else
    match svc with
    | .failed e => genErrMsg e
    | .ok [] => genErrMsg indexErrText
    | .ok (t :: _) => extractScript t

/-- The agent's mutable state relevant to `cleanup_sandbox`: the
`sandbox_dir` handle (Python `None` or a path) and the set of directories
currently existing on disk. -/
structure AgentState where
  sandbox_dir : Option Str
  dirs : List Str
deriving DecidableEq

/-- `shutil.rmtree d`: the directory and everything below it disappear. -/
def rmtree (dirs : List Str) (d : Str) : List Str :=
  dirs.filter (fun x => !(x == d || (d ++ [ '/' ]).isPrefixOf x))

/-- `cleanup_sandbox`: remove the sandbox directory and clear the handle,
guarded by the handle's truthiness and `os.path.exists`. -/
def cleanup_sandbox (st : AgentState) : AgentState :=
  match st.sandbox_dir with
  | none => st
  | some d => if d ≠ [] ∧ d ∈ st.dirs then ⟨none, rmtree st.dirs d⟩ else st

/-- Following the spec's words for the Execution Runner contract
`run(session, timeoutSeconds)`: the effective timeout is the per-call
value when supplied, otherwise the configured default.  Stated only to be
compared against the source's `sandboxTimeout`, which offers no per-call
value. -/
def specEffectiveTimeout (configured : Int) (perCall : Option Int) : Int :=
  perCall.getD configured

end VizAgent

section Scratch
open VizAgent

example : graph_sort_key (str "/sb/graph10.png") = 10 := by decide

example :
    generatedFiles (str "/sb")
      [([], [str "graph2.png", str "graph10.png", str "graph1.png"])] =
      [str "/sb/graph1.png", str "/sb/graph2.png", str "/sb/graph10.png"] := by decide

example :
    generatedFiles (str "/sb") [([], [str "graph1.png"]), (str "sub", [str "main.png"])] =
      [str "/sb/graph1.png", str "/sb/main.png"] := by decide

example :
    generatedFiles (str "/sb") [([], [str "main.svg", str "main.png", str "other.jpg"])] =
      [str "/sb/main.png", str "/sb/main.svg", str "/sb/other.jpg"] := by decide

example : sandboxTimeout none = some 30 := by decide

example : sandboxTimeout (some (str "45")) = some 45 := by decide

example : sandboxTimeout (some (str "abc")) = none := by decide

example : extractScript (str "```python\nx = 1\n```") = str "x = 1" := by decide

example : extractScript (str "```js\nx = 1\n```") = str "js\nx = 1" := by decide

example : extractScript (str "plain text") = str "plain text" := by decide

example : extractScript (str "Sure:\n```python\ny = 2") = str "y = 2" := by decide

example : extractScript [] = [] := by decide

example :
    (execute_visualization_script (str "/sb") none none
      (fun _ => .timedOut (str "a") (str "b")) []).stdout = none := by decide

example :
    cleanup_sandbox ⟨some (str "/tmp/v"), [str "/tmp/v", str "/tmp/v/sub", str "/other"]⟩ =
      ⟨none, [str "/other"]⟩ := by decide

end Scratch

namespace VizAgent

/-- C3 counterexample: when the child times out with partial streams
already captured, the returned dictionary carries no `stdout` (and no
`stderr`) at all — the claim's "includes whatever partial stdout and
stderr had been captured" fails at this concrete input. -/
theorem C3_counterexample :
    (execute_visualization_script (str "/sb") none none
        (fun _ => .timedOut (str "partial out") (str "partial err"))
        [([], [str "graph1.png"])]).stdout = none ∧
      (none : Option Str) ≠ some (str "partial out") ∧
      (execute_visualization_script (str "/sb") none none
        (fun _ => .timedOut (str "partial out") (str "partial err"))
        [([], [str "graph1.png"])]).stderr = none := by
  decide

/-- C3 (amended): when the child process exceeds the wall-clock timeout,
the result has `success = false`, carries the timeout error message and an
empty artifact list, and omits the captured stdout/stderr (and the exit
status) entirely. -/
theorem C3_timeout_outcome (sandbox : Str) (env : Option Str)
    (runProc : Int → ProcResult) (w : Walk) (t : Int) (o e : Str)
    (ht : sandboxTimeout env = some t) (hr : runProc t = .timedOut o e) :
    execute_visualization_script sandbox env none runProc w =
      ⟨false, none, none, [], none, none, some timeoutMsg⟩ := by
  simp only [execute_visualization_script, ht, hr]

/-- Witness for C3: a concrete timing-out run. -/
theorem C3_timeout_outcome_witness :
    execute_visualization_script (str "/sb") none none
        (fun _ => .timedOut (str "o") (str "e")) [([], [str "graph1.png"])] =
      ⟨false, none, none, [], none, none, some timeoutMsg⟩ :=
  C3_timeout_outcome (str "/sb") none (fun _ => .timedOut (str "o") (str "e"))
    [([], [str "graph1.png"])] 30 (str "o") (str "e") (by decide) rfl

/-- C7: a non-zero exit status without a timeout yields `success = false`,
yet the `generated_files` list is computed by the same full directory scan
as on a successful run. -/
theorem C7_nonzero_exit_still_scans (sandbox : Str) (env : Option Str)
    (runProc : Int → ProcResult) (w : Walk) (t rc : Int) (out err : Str)
    (ht : sandboxTimeout env = some t) (hr : runProc t = .completed rc out err)
    (hrc : rc ≠ 0) :
    (execute_visualization_script sandbox env none runProc w).success = false ∧
      (execute_visualization_script sandbox env none runProc w).generated_files =
        generatedFiles sandbox w ∧
      (execute_visualization_script sandbox env none runProc w).generated_files =
        (execute_visualization_script sandbox env none
          (fun _ => .completed 0 out err) w).generated_files := by
  simp [execute_visualization_script, ht, hr, hrc]

/-- Witness for C7: a concrete failing run over a sandbox holding one
chart. -/
theorem C7_nonzero_exit_still_scans_witness :
    (execute_visualization_script (str "/sb") none none
        (fun _ => .completed 1 (str "o") (str "e")) [([], [str "graph1.png"])]).success
        = false ∧
      (execute_visualization_script (str "/sb") none none
        (fun _ => .completed 1 (str "o") (str "e")) [([], [str "graph1.png"])]).generated_files
        = generatedFiles (str "/sb") [([], [str "graph1.png"])] ∧
      (execute_visualization_script (str "/sb") none none
        (fun _ => .completed 1 (str "o") (str "e")) [([], [str "graph1.png"])]).generated_files
        = (execute_visualization_script (str "/sb") none none
            (fun _ => .completed 0 (str "o") (str "e"))
            [([], [str "graph1.png"])]).generated_files :=
  C7_nonzero_exit_still_scans (str "/sb") none
    (fun _ => .completed 1 (str "o") (str "e")) [([], [str "graph1.png"])] 30 1
    (str "o") (str "e") (by decide) rfl (by decide)

/-- C9 counterexample: probing the runner with a child that reports back
the timeout it was invoked with shows that, with `SANDBOX_TIMEOUT=30`
configured, every call uses 30 — there is no per-call `timeoutSeconds`
argument, while the spec's contract would let a caller supplying 5 run
with timeout 5. -/
theorem C9_counterexample :
    (execute_visualization_script (str "/sb") (some (str "30")) none
        (fun t => .completed t [] []) []).return_code = some 30 ∧
      specEffectiveTimeout 30 (some 5) = 5 ∧ (5 : Int) ≠ 30 := by
  decide

/-- C9 (amended): the wall-clock timeout handed to the child is a function
of the `SANDBOX_TIMEOUT` configuration alone — the outcome depends on the
child's behaviour only at `sandboxTimeout env`, and the configured default
is 30 seconds when the variable is unset. -/
theorem C9_timeout_from_config_only (sandbox : Str) (env : Option Str)
    (staging : Option Str) (f g : Int → ProcResult) (w : Walk)
    (h : ∀ t, sandboxTimeout env = some t → f t = g t) :
    execute_visualization_script sandbox env staging f w =
        execute_visualization_script sandbox env staging g w ∧
      sandboxTimeout none = some 30 := by
  refine ⟨?_, by decide⟩
  cases staging with
  | some msg => rfl
  | none =>
    cases he : sandboxTimeout env with
    | none => simp [execute_visualization_script, he]
    | some t => simp [execute_visualization_script, he, h t he]

/-- Witness for C9: two childs agreeing at the configured timeout yield
identical outcomes. -/
theorem C9_timeout_from_config_only_witness :
    execute_visualization_script (str "/sb") none none
        (fun t => .completed t [] []) [] =
      execute_visualization_script (str "/sb") none none
        (fun _ => .completed 30 [] []) [] ∧
      sandboxTimeout none = some 30 :=
  C9_timeout_from_config_only (str "/sb") none none (fun t => .completed t [] [])
    (fun _ => .completed 30 [] []) []
    (by
      intro t ht
      have h30 : sandboxTimeout none = some 30 := by decide
      rw [h30] at ht
      injection ht with h2
      rw [h2])

/-- C10: when the run completes without a timeout or staging exception,
`success` is true exactly when the exit status is zero — independent of
which artifact files exist — and the outcome carries the exit status and
both captured streams. -/
theorem C10_success_iff_zero_exit (sandbox : Str) (env : Option Str)
    (runProc : Int → ProcResult) (w w2 : Walk) (t rc : Int) (out err : Str)
    (ht : sandboxTimeout env = some t) (hr : runProc t = .completed rc out err) :
    ((execute_visualization_script sandbox env none runProc w).success = true ↔ rc = 0) ∧
      (execute_visualization_script sandbox env none runProc w).return_code = some rc ∧
      (execute_visualization_script sandbox env none runProc w).stdout = some out ∧
      (execute_visualization_script sandbox env none runProc w).stderr = some err ∧
      (execute_visualization_script sandbox env none runProc w).success =
        (execute_visualization_script sandbox env none runProc w2).success := by
  simp [execute_visualization_script, ht, hr]

/-- Witness for C10: a concrete clean exit. -/
theorem C10_success_iff_zero_exit_witness :
    ((execute_visualization_script (str "/sb") none none
        (fun _ => .completed 0 (str "o") (str "e")) []).success = true ↔ (0 : Int) = 0) ∧
      (execute_visualization_script (str "/sb") none none
        (fun _ => .completed 0 (str "o") (str "e")) []).return_code = some 0 ∧
      (execute_visualization_script (str "/sb") none none
        (fun _ => .completed 0 (str "o") (str "e")) []).stdout = some (str "o") ∧
      (execute_visualization_script (str "/sb") none none
        (fun _ => .completed 0 (str "o") (str "e")) []).stderr = some (str "e") ∧
      (execute_visualization_script (str "/sb") none none
        (fun _ => .completed 0 (str "o") (str "e")) []).success =
        (execute_visualization_script (str "/sb") none none
          (fun _ => .completed 0 (str "o") (str "e")) [([], [str "graph1.png"])]).success :=
  C10_success_iff_zero_exit (str "/sb") none (fun _ => .completed 0 (str "o") (str "e"))
    [] [([], [str "graph1.png"])] 30 0 (str "o") (str "e") (by decide) rfl

/-- C6: `cleanup_sandbox` is idempotent, is a no-op on a session whose
handle is cleared (never opened or already closed), and on a session whose
handle points at an existing directory it removes that directory and
clears the handle. -/
theorem C6_cleanup_idempotent (st : AgentState) (d : Str) :
    cleanup_sandbox (cleanup_sandbox st) = cleanup_sandbox st ∧
      (∀ dirs : List Str, cleanup_sandbox ⟨none, dirs⟩ = ⟨none, dirs⟩) ∧
      (st.sandbox_dir = some d → d ≠ [] → d ∈ st.dirs →
        (cleanup_sandbox st).sandbox_dir = none ∧ d ∉ (cleanup_sandbox st).dirs) := by
  refine ⟨?_, fun dirs => rfl, fun hd hne hmem => ?_⟩
  · cases st with
    | mk sb dirs =>
      cases sb with
      | none => rfl
      | some d₀ =>
        by_cases h : d₀ ≠ [] ∧ d₀ ∈ dirs
        · simp [cleanup_sandbox, h]
        · simp [cleanup_sandbox, h]
  · cases st with
    | mk sb dirs =>
      simp only at hd hmem
      subst hd
      have hcond : d ≠ [] ∧ d ∈ dirs := ⟨hne, hmem⟩
      constructor
      · simp [cleanup_sandbox, hcond]
      · simp [cleanup_sandbox, hcond, rmtree, List.mem_filter]

/-- Witness for C6: a concrete opened session. -/
theorem C6_cleanup_idempotent_witness :
    cleanup_sandbox (cleanup_sandbox ⟨some (str "/tmp/v"), [str "/tmp/v"]⟩) =
        cleanup_sandbox ⟨some (str "/tmp/v"), [str "/tmp/v"]⟩ ∧
      (∀ dirs : List Str, cleanup_sandbox ⟨none, dirs⟩ = ⟨none, dirs⟩) ∧
      ((⟨some (str "/tmp/v"), [str "/tmp/v"]⟩ : AgentState).sandbox_dir = some (str "/tmp/v") →
        str "/tmp/v" ≠ [] → str "/tmp/v" ∈ (⟨some (str "/tmp/v"), [str "/tmp/v"]⟩ : AgentState).dirs →
        (cleanup_sandbox ⟨some (str "/tmp/v"), [str "/tmp/v"]⟩).sandbox_dir = none ∧
          str "/tmp/v" ∉ (cleanup_sandbox ⟨some (str "/tmp/v"), [str "/tmp/v"]⟩).dirs) :=
  C6_cleanup_idempotent ⟨some (str "/tmp/v"), [str "/tmp/v"]⟩ (str "/tmp/v")

/-- The error returns of `generate_visualization_script` all start with the
comment marker `# Chyba`. -/
theorem chyba_starts_genErrMsg (e : Str) : str "# Chyba" <+: genErrMsg e := by
  have h : genErrMsg e = str "# Chyba" ++ (str " při generování skriptu: " ++ e) := by
    have hsplit : str "# Chyba při generování skriptu: " =
        str "# Chyba" ++ str " při generování skriptu: " := by decide
    rw [genErrMsg, hsplit, List.append_assoc]
  rw [h]
  exact List.prefix_append _ _

/-- C4 counterexample: a service response whose single content block is
the empty string is returned verbatim as (empty) program text — no
`SynthesisError`, no human-readable message, nothing distinguishable from
program text. -/
theorem C4_counterexample :
    generate_visualization_script (some (str "model-a")) (.ok [[]]) = [] ∧
      ((str "# Chyba").isPrefixOf ([] : Str) = false) := by
  decide

/-- C4 (amended): a transport/service error, or a response with no content
block (which raises `IndexError` at `response.content[0]`), makes the
function return a comment string starting with `# Chyba` that carries a
human-readable message, in place of program text — not a distinct error
value; an empty text block, by contrast, is returned verbatim.  The
service is consulted exactly once per call (the embedding consumes a
single `ServiceResult`). -/
theorem C4_errors_become_comment_text (m : Str) (hm : m ≠ []) (msg : Str) :
    generate_visualization_script (some m) (.failed msg) = genErrMsg msg ∧
      str "# Chyba" <+: generate_visualization_script (some m) (.failed msg) ∧
      generate_visualization_script (some m) (.ok []) = genErrMsg indexErrText ∧
      str "# Chyba" <+: generate_visualization_script (some m) (.ok []) ∧
      generate_visualization_script (some m) (.ok [[]]) = [] := by
  refine ⟨?_, ?_, ?_, ?_, ?_⟩
  · simp [generate_visualization_script, hm]
  · simpa [generate_visualization_script, hm] using chyba_starts_genErrMsg msg
  · simp [generate_visualization_script, hm]
  · simpa [generate_visualization_script, hm] using chyba_starts_genErrMsg indexErrText
  · simp [generate_visualization_script, hm, extractScript, findFrom, findFromAux,
      pyMarker, fenceStr, str]

/-- Witness for C4: a concrete failed transport call. -/
theorem C4_errors_become_comment_text_witness :
    generate_visualization_script (some (str "model-a")) (.failed (str "conn reset")) =
        genErrMsg (str "conn reset") ∧
      str "# Chyba" <+: generate_visualization_script (some (str "model-a"))
        (.failed (str "conn reset")) ∧
      generate_visualization_script (some (str "model-a")) (.ok []) = genErrMsg indexErrText ∧
      str "# Chyba" <+: generate_visualization_script (some (str "model-a")) (.ok []) ∧
      generate_visualization_script (some (str "model-a")) (.ok [[]]) = [] :=
  C4_errors_become_comment_text (str "model-a") (by decide) (str "conn reset")

/-- The membership-guarded append keeps the accumulator duplicate-free. -/
theorem addNew_nodup (acc : List Str) (p : Str) (h : acc.Nodup) : (addNew acc p).Nodup := by
  by_cases hp : p ∈ acc
  · simpa [addNew, hp] using h
  · simp [addNew, hp, List.nodup_append, h]

/-- Folding the guarded append keeps the accumulator duplicate-free. -/
theorem addAllNew_nodup (ps : List Str) (acc : List Str) (h : acc.Nodup) :
    (addAllNew acc ps).Nodup := by
  induction ps generalizing acc with
  | nil => exact h
  | cons p ps ih => exact ih (addNew acc p) (addNew_nodup acc p h)

/-- Where elements of the guarded append come from. -/
theorem mem_addNew (acc : List Str) (p q : Str) (h : q ∈ addNew acc p) : q ∈ acc ∨ q = p := by
  by_cases hp : p ∈ acc
  · simp only [addNew, if_pos hp] at h
    exact Or.inl h
  · simp only [addNew, if_neg hp, List.mem_append, List.mem_singleton] at h
    exact h

/-- Where elements of the folded guarded append come from. -/
theorem mem_addAllNew (ps : List Str) (acc : List Str) (q : Str)
    (h : q ∈ addAllNew acc ps) : q ∈ acc ∨ q ∈ ps := by
  induction ps generalizing acc with
  | nil => exact Or.inl h
  | cons p ps ih =>
    rcases ih (addNew acc p) h with h1 | h1
    · rcases mem_addNew acc p q h1 with h2 | h2
      · exact Or.inl h2
      · exact Or.inr (by simp [h2])
    · exact Or.inr (List.mem_cons_of_mem p h1)

/-- The guarded append only ever extends the accumulator on the right. -/
theorem addAllNew_pre (ps : List Str) (acc : List Str) : acc <+: addAllNew acc ps := by
  induction ps generalizing acc with
  | nil => exact List.prefix_refl acc
  | cons p ps ih =>
    refine List.IsPrefix.trans ?_ (ih (addNew acc p))
    by_cases hp : p ∈ acc
    · simp [addNew, hp]
    · simp [addNew, hp]

/-- `os.path.join` on a well-formed directory and a relative name inserts
exactly one slash. -/
theorem pjoin_eq_cons (a b : Str) (ha : a ≠ []) (ha2 : a.getLast? ≠ some '/')
    (hb : isAbs b = false) : pjoin a b = a ++ '/' :: b := by
  unfold pjoin
  rw [if_neg (by simp [hb]), if_neg (by simp [ha, ha2])]

/-- `main<ext>` never looks absolute. -/
theorem isAbs_main (ext : Str) : isAbs (str "main" ++ ext) = false := rfl

/-- Splitting a path of the form `sandbox ++ '/' :: rest`. -/
theorem slash_pre (sandbox rest : Str) : sandbox ++ [ '/' ] <+: sandbox ++ '/' :: rest := by
  have h : sandbox ++ '/' :: rest = (sandbox ++ [ '/' ]) ++ rest := by simp
  rw [h]
  exact List.prefix_append _ _

/-- Every path the first scan pass emits sits directly under the sandbox. -/
theorem mem_mainFiles_shape (sandbox : Str) (w : Walk) (p : Str)
    (hs1 : sandbox ≠ []) (hs2 : sandbox.getLast? ≠ some '/')
    (h : p ∈ mainFiles sandbox w) : ∃ rest, p = sandbox ++ '/' :: rest := by
  unfold mainFiles at h
  rcases hfind : preferred_exts.find? (fun ext => existsTop w (str "main" ++ ext)) with _ | ext
  · rw [hfind] at h
    simp at h
  · rw [hfind] at h
    simp only [List.mem_singleton] at h
    subst h
    exact ⟨str "main" ++ ext, pjoin_eq_cons _ _ hs1 hs2 (isAbs_main ext)⟩

/-- `graphCandidates` over a cons walk, by definition. -/
theorem graphCandidates_cons (sandbox : Str) (e : WalkEntry) (w : Walk) :
    graphCandidates sandbox (e :: w) =
      (e.2.filter isGraphName).map (pjoin (absRoot sandbox e.1)) ++
        graphCandidates sandbox w := rfl

/-- `catchAllFiles` over a cons walk, by definition. -/
theorem catchAllFiles_cons (sandbox : Str) (e : WalkEntry) (w : Walk) :
    catchAllFiles sandbox (e :: w) =
      (e.2.filter (fun f => endsWithAny (lowerStr f))).map
        (fun f => if isAbs f then f else pjoin sandbox f) ++
        catchAllFiles sandbox w := rfl

/-- Joining a walk entry's root with one of its file names lands under the
sandbox, for well-formed walk entries. -/
theorem pjoin_absRoot_shape (sandbox rel f : Str)
    (hs1 : sandbox ≠ []) (hs2 : sandbox.getLast? ≠ some '/')
    (hrel : isAbs rel = false) (hrel2 : rel.getLast? ≠ some '/')
    (hf : isAbs f = false) :
    ∃ rest, pjoin (absRoot sandbox rel) f = sandbox ++ '/' :: rest := by
  unfold absRoot
  by_cases h0 : rel = []
  · rw [if_pos h0]
    exact ⟨f, pjoin_eq_cons _ _ hs1 hs2 hf⟩
  · rw [if_neg h0, pjoin_eq_cons sandbox rel hs1 hs2 hrel]
    have hne : (sandbox ++ '/' :: rel) ≠ [] := by simp
    have hlast : (sandbox ++ '/' :: rel).getLast? ≠ some '/' := by
      rw [List.getLast?_append_of_ne_nil _ (by simp),
        show ('/' :: rel) = [ '/' ] ++ rel from rfl,
        List.getLast?_append_of_ne_nil _ h0]
      exact hrel2
    rw [pjoin_eq_cons _ _ hne hlast hf]
    exact ⟨rel ++ '/' :: f, by simp⟩

/-- Every path the second scan pass collects sits under the sandbox. -/
theorem mem_graphCandidates_shape (sandbox : Str) (w : Walk) (p : Str)
    (hs1 : sandbox ≠ []) (hs2 : sandbox.getLast? ≠ some '/')
    (hw : ∀ e ∈ w, isAbs e.1 = false ∧ e.1.getLast? ≠ some '/' ∧ ∀ f ∈ e.2, isAbs f = false)
    (h : p ∈ graphCandidates sandbox w) : ∃ rest, p = sandbox ++ '/' :: rest := by
  induction w with
  | nil => simp [graphCandidates] at h
  | cons e w ih =>
    rw [graphCandidates_cons, List.mem_append] at h
    rcases h with h | h
    · simp only [List.mem_map, List.mem_filter] at h
      rcases h with ⟨f, ⟨hf_mem, _⟩, hf_eq⟩
      rcases hw e (by simp) with ⟨h1, h2, h3⟩
      rcases pjoin_absRoot_shape sandbox e.1 f hs1 hs2 h1 h2 (h3 f hf_mem) with ⟨rest, hr⟩
      exact ⟨rest, hf_eq ▸ hr⟩
    · exact ih (fun e2 he2 => hw e2 (List.mem_cons_of_mem e he2)) h

/-- Every path the catch-all pass emits sits directly under the sandbox. -/
theorem mem_catchAllFiles_shape (sandbox : Str) (w : Walk) (p : Str)
    (hs1 : sandbox ≠ []) (hs2 : sandbox.getLast? ≠ some '/')
    (hw : ∀ e ∈ w, isAbs e.1 = false ∧ e.1.getLast? ≠ some '/' ∧ ∀ f ∈ e.2, isAbs f = false)
    (h : p ∈ catchAllFiles sandbox w) : ∃ rest, p = sandbox ++ '/' :: rest := by
  induction w with
  | nil => simp [catchAllFiles] at h
  | cons e w ih =>
    rw [catchAllFiles_cons, List.mem_append] at h
    rcases h with h | h
    · simp only [List.mem_map, List.mem_filter] at h
      rcases h with ⟨f, ⟨hf_mem, _⟩, hf_eq⟩
      rcases hw e (by simp) with ⟨_, _, h3⟩
      have hf : isAbs f = false := h3 f hf_mem
      rw [if_neg (by simp [hf])] at hf_eq
      exact ⟨f, hf_eq ▸ pjoin_eq_cons _ _ hs1 hs2 hf⟩
    · exact ih (fun e2 he2 => hw e2 (List.mem_cons_of_mem e he2)) h

/-- The first pass emits no duplicate (it is at most a singleton). -/
theorem mainFiles_nodup (sandbox : Str) (w : Walk) : (mainFiles sandbox w).Nodup := by
  unfold mainFiles
  rcases preferred_exts.find? (fun ext => existsTop w (str "main" ++ ext)) with _ | ext <;> simp

/-- C1: for every walk of the sandbox produced by the staged program, the
artifact list contains no path twice, and every listed path lies strictly
inside the sandbox directory, whatever files (in subdirectories or
matching several scan rules) were created. -/
theorem C1_no_dup_no_escape (sandbox : Str) (w : Walk)
    (hs1 : sandbox ≠ []) (hs2 : sandbox.getLast? ≠ some '/')
    (hw : ∀ e ∈ w, isAbs e.1 = false ∧ e.1.getLast? ≠ some '/' ∧ ∀ f ∈ e.2, isAbs f = false) :
    (generatedFiles sandbox w).Nodup ∧
      ∀ p ∈ generatedFiles sandbox w, sandbox ++ [ '/' ] <+: p := by
  constructor
  · exact addAllNew_nodup _ _ (addAllNew_nodup _ _ (mainFiles_nodup sandbox w))
  · intro p hp
    unfold generatedFiles at hp
    rcases mem_addAllNew _ _ _ hp with hp1 | hp1
    · rcases mem_addAllNew _ _ _ hp1 with hp2 | hp2
      · rcases mem_mainFiles_shape sandbox w p hs1 hs2 hp2 with ⟨rest, hr⟩
        exact hr ▸ slash_pre sandbox rest
      · unfold sortedGraphCandidates at hp2
        rw [(List.perm_insertionSort keyLe (graphCandidates sandbox w)).mem_iff] at hp2
        rcases mem_graphCandidates_shape sandbox w p hs1 hs2 hw hp2 with ⟨rest, hr⟩
        exact hr ▸ slash_pre sandbox rest
    · rcases mem_catchAllFiles_shape sandbox w p hs1 hs2 hw hp1 with ⟨rest, hr⟩
      exact hr ▸ slash_pre sandbox rest

/-- Witness for C1: a sandbox holding a primary file, graph files (one of
them duplicated across the rules), a nested chart and an unrelated image. -/
theorem C1_no_dup_no_escape_witness :
    (generatedFiles (str "/tmp/viz_sandbox_w")
        [([], [str "main.png", str "graph2.png", str "graph1.png", str "other.jpg"]),
          (str "sub", [str "graph3.png"])]).Nodup ∧
      ∀ p ∈ generatedFiles (str "/tmp/viz_sandbox_w")
        [([], [str "main.png", str "graph2.png", str "graph1.png", str "other.jpg"]),
          (str "sub", [str "graph3.png"])],
        str "/tmp/viz_sandbox_w" ++ [ '/' ] <+: p :=
  C1_no_dup_no_escape (str "/tmp/viz_sandbox_w")
    [([], [str "main.png", str "graph2.png", str "graph1.png", str "other.jpg"]),
      (str "sub", [str "graph3.png"])]
    (by decide) (by decide) (by decide)

/-- Inserting into a sorted-so-far list commutes with filtering for one
key value: the inserted element lands in front of the equal-key block. -/
theorem filter_orderedInsert_key (a : Str) (l : List Str) (k : Nat) :
    (List.orderedInsert keyLe a l).filter (fun p => graph_sort_key p == k) =
      if graph_sort_key a == k then
        a :: l.filter (fun p => graph_sort_key p == k)
      else l.filter (fun p => graph_sort_key p == k) := by
  induction l with
  | nil =>
    by_cases ha : graph_sort_key a == k <;> simp [List.orderedInsert, List.filter, ha]
  | cons b t ih =>
    by_cases hab : keyLe a b
    · rw [List.orderedInsert_of_le _ _ hab]
      by_cases ha : graph_sort_key a == k <;> simp [List.filter_cons, ha]
    · have hbi : List.orderedInsert keyLe a (b :: t) = b :: List.orderedInsert keyLe a t := by
        simp [List.orderedInsert, hab]
      have hlt : graph_sort_key b < graph_sort_key a := by
        unfold keyLe at hab
        omega
      rw [hbi]
      by_cases ha : graph_sort_key a == k
      · have hbk : (graph_sort_key b == k) = false := by
          have hne : graph_sort_key b ≠ k := by
            simp only [beq_iff_eq] at ha
            omega
          simpa using hne
        simp [List.filter_cons, hbk, ih, ha]
      · simp [List.filter_cons, ih, ha]

/-- Stability of the embedded sort: for every key value, the sorted list
restricted to that key is the original walk-ordered list restricted to
that key. -/
theorem filter_insertionSort_key (l : List Str) (k : Nat) :
    (List.insertionSort keyLe l).filter (fun p => graph_sort_key p == k) =
      l.filter (fun p => graph_sort_key p == k) := by
  induction l with
  | nil => rfl
  | cons a t ih =>
    rw [show List.insertionSort keyLe (a :: t) =
        List.orderedInsert keyLe a (List.insertionSort keyLe t) from rfl,
      filter_orderedInsert_key, ih, List.filter_cons]

/-- C2: the second pass's output is a permutation of the walk-ordered
candidates, is sorted ascending by the digits embedded in the basename,
breaks ties stably (per-key filtrations coincide with walk order), a
digit-free name gets key 0, and on the concrete files `graph2.png,
graph10.png, graph1.png` (walked in creation order) the resolver returns
`graph1.png, graph2.png, graph10.png`. -/
theorem C2_graph_numeric_sort (sandbox : Str) (w : Walk) (k : Nat) :
    List.Perm (sortedGraphCandidates sandbox w) (graphCandidates sandbox w) ∧
      List.Sorted keyLe (sortedGraphCandidates sandbox w) ∧
      (sortedGraphCandidates sandbox w).filter (fun p => graph_sort_key p == k) =
        (graphCandidates sandbox w).filter (fun p => graph_sort_key p == k) ∧
      graph_sort_key (str "graph.png") = 0 ∧
      generatedFiles (str "/sb")
          [([], [str "graph2.png", str "graph10.png", str "graph1.png"])] =
        [str "/sb/graph1.png", str "/sb/graph2.png", str "/sb/graph10.png"] :=
  ⟨List.perm_insertionSort keyLe _, List.sorted_insertionSort keyLe _,
    filter_insertionSort_key _ k, by decide, by decide⟩

/-- A list beginning a longer list pins down its head. -/
theorem head?_of_pre (x : Str) (l L : List Str) (h : x :: l <+: L) : L.head? = some x := by
  rcases h with ⟨t, ht⟩
  rw [← ht]
  rfl

/-- C8 counterexample: `main.png` exists in the sandbox tree (in the
subdirectory `sub`, so at `/sb/sub/main.png`), yet the artifact list's
first element is the graph file — the primary-name rule only inspects the
sandbox root, so the claim fails for files found deeper in the tree (the
catch-all pass even records it under a wrong, root-joined path). -/
theorem C8_counterexample :
    generatedFiles (str "/sb") [([], [str "graph1.png"]), (str "sub", [str "main.png"])] =
        [str "/sb/graph1.png", str "/sb/main.png"] ∧
      (generatedFiles (str "/sb")
          [([], [str "graph1.png"]), (str "sub", [str "main.png"])]).head? ≠
        some (pjoin (absRoot (str "/sb") (str "sub")) (str "main.png")) ∧
      (str "sub", [str "main.png"]) ∈
        [(([] : Str), [str "graph1.png"]), (str "sub", [str "main.png"])] := by
  decide

/-- C8 (amended): when a file named `main<ext>` exists at the sandbox
root for some recognized extension, the first such extension in the fixed
priority list is chosen and that file is the first artifact, regardless of
walk order. -/
theorem C8_main_first (sandbox : Str) (w : Walk) (ext : Str)
    (hfind : preferred_exts.find? (fun e => existsTop w (str "main" ++ e)) = some ext) :
    (generatedFiles sandbox w).head? = some (pjoin sandbox (str "main" ++ ext)) ∧
      pjoin sandbox (str "main" ++ ext) ∈ generatedFiles sandbox w := by
  have hmf : mainFiles sandbox w = [pjoin sandbox (str "main" ++ ext)] := by
    unfold mainFiles
    rw [hfind]
  have hpre : mainFiles sandbox w <+: generatedFiles sandbox w :=
    List.IsPrefix.trans (addAllNew_pre _ _) (addAllNew_pre _ _)
  rw [hmf] at hpre
  exact ⟨head?_of_pre _ _ _ hpre, hpre.subset (by simp)⟩

/-- Witness for C8: `main.svg` and `main.png` both exist at the root and
`.png` wins; the walk lists them after other files. -/
theorem C8_main_first_witness :
    (generatedFiles (str "/sb")
        [([], [str "graph1.png", str "main.svg", str "main.png"])]).head? =
        some (pjoin (str "/sb") (str "main" ++ str ".png")) ∧
      pjoin (str "/sb") (str "main" ++ str ".png") ∈
        generatedFiles (str "/sb") [([], [str "graph1.png", str "main.svg", str "main.png"])] :=
  C8_main_first (str "/sb") [([], [str "graph1.png", str "main.svg", str "main.png"])]
    (str ".png") (by decide)

/-- The bounded scan reports the least matching index it can reach. -/
theorem findFromAux_eq_some (s pat : Str) (fuel i j : Nat)
    (hij : i ≤ j) (hjf : j ≤ i + fuel)
    (hmatch : pat.isPrefixOf (s.drop j) = true)
    (hmin : ∀ m, i ≤ m → m < j → pat.isPrefixOf (s.drop m) = false) :
    findFromAux s pat i fuel = some j := by
  induction fuel generalizing i with
  | zero =>
    have hji : j = i := by omega
    subst hji
    simp [findFromAux, hmatch]
  | succ f ih =>
    by_cases hi : i = j
    · subst hi
      simp [findFromAux, hmatch]
    · have hlt : i < j := lt_of_le_of_ne hij hi
      have hnp : pat.isPrefixOf (s.drop i) = false := hmin i le_rfl hlt
      simp only [findFromAux, hnp, Bool.false_eq_true, if_false]
      exact ih (i + 1) hlt (by omega) (fun m hm1 hm2 => hmin m (by omega) hm2)

/-- The bounded scan fails when no index in range matches. -/
theorem findFromAux_eq_none (s pat : Str) (fuel i : Nat)
    (h : ∀ m, i ≤ m → m ≤ i + fuel → pat.isPrefixOf (s.drop m) = false) :
    findFromAux s pat i fuel = none := by
  induction fuel generalizing i with
  | zero => simp [findFromAux, h i le_rfl (by omega)]
  | succ f ih =>
    simp only [findFromAux, h i le_rfl (by omega), Bool.false_eq_true, if_false]
    exact ih (i + 1) (fun m hm1 hm2 => h m (by omega) (by omega))

/-- `str.find` characterised: first occurrence position. -/
theorem findFrom_eq_some (s pat : Str) (i j : Nat)
    (hij : i ≤ j) (hjs : j ≤ s.length)
    (hmatch : pat.isPrefixOf (s.drop j) = true)
    (hmin : ∀ m, i ≤ m → m < j → pat.isPrefixOf (s.drop m) = false) :
    findFrom s pat i = some j :=
  findFromAux_eq_some s pat (s.length - i) i j hij (by omega) hmatch hmin

/-- `str.find` fails when the pattern occurs nowhere at or after `i`. -/
theorem findFrom_eq_none (s pat : Str) (i : Nat)
    (h : ∀ m, i ≤ m → pat.isPrefixOf (s.drop m) = false) :
    findFrom s pat i = none :=
  findFromAux_eq_none s pat (s.length - i) i (fun m hm _ => h m hm)

/-- A successful prefix match fixes the target's first character. -/
theorem match_head (pat x : Str) (c : Char) (hp : pat.head? = some c)
    (h : pat.isPrefixOf x = true) : x.head? = some c := by
  rw [List.isPrefixOf_iff_prefix] at h
  rcases h with ⟨t, ht⟩
  cases pat with
  | nil => exact absurd hp (by simp)
  | cons p ps =>
    injection hp with hp2
    rw [← ht, ← hp2]
    rfl

/-- A pattern opening with `c` never matches inside a `c`-free string. -/
theorem clean_no_match (b pat : Str) (c : Char) (hp : pat.head? = some c)
    (hb : ∀ ch ∈ b, ch ≠ c) (n : Nat) : pat.isPrefixOf (b.drop n) = false := by
  cases hm : pat.isPrefixOf (b.drop n) with
  | false => rfl
  | true =>
    exfalso
    have hh : (b.drop n).head? = some c := match_head pat _ c hp hm
    rw [List.head?_drop] at hh
    exact hb c (by
      have h2 : n < b.length := by
        by_contra hn
        rw [List.getElem?_eq_none (by omega)] at hh
        exact Option.noConfusion hh
      rw [List.getElem?_eq_getElem h2] at hh
      injection hh with h3
      rw [← h3]
      exact b.getElem_mem h2) rfl

/-- A pattern opening with `c` never matches strictly inside the `c`-free
first block of a concatenation. -/
theorem clean_pre_no_match (a t pat : Str) (c : Char) (hp : pat.head? = some c)
    (ha : ∀ ch ∈ a, ch ≠ c) (m : Nat) (hm : m < a.length) :
    pat.isPrefixOf ((a ++ t).drop m) = false := by
  cases hmatch : pat.isPrefixOf ((a ++ t).drop m) with
  | false => rfl
  | true =>
    exfalso
    have hh : ((a ++ t).drop m).head? = some c := match_head pat _ c hp hmatch
    rw [List.drop_append_of_le_length (by omega)] at hh
    have hnil : a.drop m ≠ [] := by
      rw [Ne, List.drop_eq_nil_iff]
      omega
    have hh2 : (a.drop m).head? = some c := by
      cases hd : a.drop m with
      | nil => exact absurd hd hnil
      | cons x xs =>
        rw [hd] at hh
        simpa using hh
    rw [List.head?_drop] at hh2
    exact ha c (by
      rw [List.getElem?_eq_getElem hm] at hh2
      injection hh2 with h3
      rw [← h3]
      exact a.getElem_mem hm) rfl

/-- Occurring as an infix is the same as matching at some scan position. -/
theorem infix_iff_match (pat s : Str) :
    pat <:+: s ↔ ∃ m, pat.isPrefixOf (s.drop m) = true := by
  constructor
  · rintro ⟨u, v, huv⟩
    refine ⟨u.length, ?_⟩
    rw [← huv, show u ++ pat ++ v = u ++ (pat ++ v) by simp, List.drop_left,
      List.isPrefixOf_iff_prefix]
    exact List.prefix_append pat v
  · rintro ⟨m, hm⟩
    rw [List.isPrefixOf_iff_prefix] at hm
    exact hm.isInfix.trans (List.drop_suffix m s).isInfix

/-- C5 counterexample: the response `"```js\nx = 1\n```"` contains exactly
one fenced code block, tagged `js` with interior `x = 1`, yet the
extracted program text is `"js\nx = 1"` — the language tag of the fence is
left in the program text, so the result is not the block's interior
(neither bare nor with its surrounding newlines). -/
theorem C5_counterexample :
    extractScript (str "```js\nx = 1\n```") = str "js\nx = 1" ∧
      extractScript (str "```js\nx = 1\n```") ≠ str "x = 1" ∧
      extractScript (str "```js\nx = 1\n```") ≠ str "\nx = 1\n" := by
  decide

/-- The python marker is nine characters long. -/
theorem pyMarker_length : pyMarker.length = 9 := rfl

/-- The fence marker is three characters long. -/
theorem fenceStr_length : fenceStr.length = 3 := rfl

/-- Helper: `fenceStr` never matches inside a backtick-free region placed
after a prefix of known length. -/
theorem fence_no_match_shifted (p b t : Str) (hb : ∀ ch ∈ b, ch ≠ tick)
    (m : Nat) (hm1 : p.length ≤ m) (hm2 : m < p.length + b.length) :
    fenceStr.isPrefixOf ((p ++ (b ++ t)).drop m) = false := by
  have hm' : m = p.length + (m - p.length) := by omega
  rw [hm', List.drop_append]
  exact clean_pre_no_match b t fenceStr tick rfl hb (m - p.length) (by omega)

/-- A `python`-tagged fence with a closing fence: everything between the
markers, stripped. -/
theorem extract_python_closed (a b c : Str)
    (ha : ∀ ch ∈ a, ch ≠ tick) (hb : ∀ ch ∈ b, ch ≠ tick) :
    extractScript (a ++ pyMarker ++ b ++ fenceStr ++ c) = pyStrip b := by
  set s := a ++ pyMarker ++ b ++ fenceStr ++ c with hs
  have hsl : s.length = a.length + 9 + b.length + 3 + c.length := by
    rw [hs]
    simp only [List.length_append, pyMarker_length, fenceStr_length]
  have hgroup1 : s = a ++ (pyMarker ++ (b ++ (fenceStr ++ c))) := by rw [hs]; simp
  have hgroup2 : s = (a ++ pyMarker) ++ (b ++ (fenceStr ++ c)) := by rw [hs]; simp
  have hgroup3 : s = (a ++ pyMarker ++ b) ++ (fenceStr ++ c) := by rw [hs]; simp
  have h1 : findFrom s pyMarker 0 = some a.length := by
    apply findFrom_eq_some
    · omega
    · omega
    · rw [hgroup1, List.drop_left, List.isPrefixOf_iff_prefix]
      exact List.prefix_append _ _
    · intro m hm1 hm2
      rw [hgroup1]
      exact clean_pre_no_match a _ pyMarker tick rfl ha m hm2
  have hlen2 : (a ++ pyMarker).length = a.length + 9 := by
    simp only [List.length_append, pyMarker_length, fenceStr_length]
  have hlen3 : (a ++ pyMarker ++ b).length = a.length + 9 + b.length := by
    simp only [List.length_append, pyMarker_length, fenceStr_length]
  have h2 : findFrom s fenceStr (a.length + 9) = some (a.length + 9 + b.length) := by
    apply findFrom_eq_some
    · omega
    · omega
    · rw [hgroup3, ← hlen3, List.drop_left, List.isPrefixOf_iff_prefix]
      exact List.prefix_append _ _
    · intro m hm1 hm2
      rw [hgroup2]
      exact fence_no_match_shifted (a ++ pyMarker) b (fenceStr ++ c) hb m
        (by omega) (by omega)
  have hdrop : s.drop (a.length + 9) = b ++ (fenceStr ++ c) := by
    rw [hgroup2, ← hlen2, List.drop_left]
  simp only [extractScript, h1, extractAfter, show pyMarker.length = 9 from rfl, h2,
    pySlice, hdrop, show a.length + 9 + b.length - (a.length + 9) = b.length by omega]
  rw [List.take_left b (fenceStr ++ c)]

/-- A `python`-tagged fence with no closing fence: everything to the end,
stripped. -/
theorem extract_python_unclosed (a b : Str)
    (ha : ∀ ch ∈ a, ch ≠ tick) (hb : ∀ ch ∈ b, ch ≠ tick) :
    extractScript (a ++ pyMarker ++ b) = pyStrip b := by
  set s := a ++ pyMarker ++ b with hs
  have hsl : s.length = a.length + 9 + b.length := by
    rw [hs]
    simp only [List.length_append, pyMarker_length, fenceStr_length]
  have hgroup1 : s = a ++ (pyMarker ++ b) := by rw [hs]; simp
  have hgroup2 : s = (a ++ pyMarker) ++ b := hs
  have hlen2 : (a ++ pyMarker).length = a.length + 9 := by
    simp only [List.length_append, pyMarker_length, fenceStr_length]
  have h1 : findFrom s pyMarker 0 = some a.length := by
    apply findFrom_eq_some
    · omega
    · omega
    · rw [hgroup1, List.drop_left, List.isPrefixOf_iff_prefix]
      exact List.prefix_append _ _
    · intro m hm1 hm2
      rw [hgroup1]
      exact clean_pre_no_match a _ pyMarker tick rfl ha m hm2
  have h2 : findFrom s fenceStr (a.length + 9) = none := by
    apply findFrom_eq_none
    intro m hm
    rw [hgroup2]
    have hm' : m = (a ++ pyMarker).length + (m - (a.length + 9)) := by omega
    rw [hm', List.drop_append]
    exact clean_no_match b fenceStr tick rfl hb _
  have hdrop : s.drop (a.length + 9) = b := by
    rw [hgroup2, ← hlen2, List.drop_left]
  simp only [extractScript, h1, extractAfter, show pyMarker.length = 9 from rfl, h2, hdrop]

/-- No `python`-tagged fence but a generic fence pair: everything between
the first fence marker (language tag included) and the next, stripped. -/
theorem extract_generic_closed (a b c : Str)
    (ha : ∀ ch ∈ a, ch ≠ tick) (hb : ∀ ch ∈ b, ch ≠ tick)
    (hpy : ¬ pyMarker <:+: (a ++ fenceStr ++ b ++ fenceStr ++ c)) :
    extractScript (a ++ fenceStr ++ b ++ fenceStr ++ c) = pyStrip b := by
  set s := a ++ fenceStr ++ b ++ fenceStr ++ c with hs
  have hsl : s.length = a.length + 3 + b.length + 3 + c.length := by
    rw [hs]
    simp only [List.length_append, pyMarker_length, fenceStr_length]
  have hgroup1 : s = a ++ (fenceStr ++ (b ++ (fenceStr ++ c))) := by rw [hs]; simp
  have hgroup2 : s = (a ++ fenceStr) ++ (b ++ (fenceStr ++ c)) := by rw [hs]; simp
  have hgroup3 : s = (a ++ fenceStr ++ b) ++ (fenceStr ++ c) := by rw [hs]; simp
  have h0 : findFrom s pyMarker 0 = none := by
    apply findFrom_eq_none
    intro m hm
    cases hmatch : pyMarker.isPrefixOf (s.drop m) with
    | false => rfl
    | true => exact absurd ((infix_iff_match pyMarker s).mpr ⟨m, hmatch⟩) hpy
  have hlen2 : (a ++ fenceStr).length = a.length + 3 := by
    simp only [List.length_append, pyMarker_length, fenceStr_length]
  have hlen3 : (a ++ fenceStr ++ b).length = a.length + 3 + b.length := by
    simp only [List.length_append, pyMarker_length, fenceStr_length]
  have h1 : findFrom s fenceStr 0 = some a.length := by
    apply findFrom_eq_some
    · omega
    · omega
    · rw [hgroup1, List.drop_left, List.isPrefixOf_iff_prefix]
      exact List.prefix_append _ _
    · intro m hm1 hm2
      rw [hgroup1]
      exact clean_pre_no_match a _ fenceStr tick rfl ha m hm2
  have h2 : findFrom s fenceStr (a.length + 3) = some (a.length + 3 + b.length) := by
    apply findFrom_eq_some
    · omega
    · omega
    · rw [hgroup3, ← hlen3, List.drop_left, List.isPrefixOf_iff_prefix]
      exact List.prefix_append _ _
    · intro m hm1 hm2
      rw [hgroup2]
      exact fence_no_match_shifted (a ++ fenceStr) b (fenceStr ++ c) hb m
        (by omega) (by omega)
  have hdrop : s.drop (a.length + 3) = b ++ (fenceStr ++ c) := by
    rw [hgroup2, ← hlen2, List.drop_left]
  simp only [extractScript, h0, h1, extractAfter, show fenceStr.length = 3 from rfl, h2,
    pySlice, hdrop, show a.length + 3 + b.length - (a.length + 3) = b.length by omega]
  rw [List.take_left b (fenceStr ++ c)]

/-- No fence marker anywhere: the raw response verbatim. -/
theorem extract_verbatim (s : Str) (hfence : ¬ fenceStr <:+: s) : extractScript s = s := by
  have hpy : ¬ pyMarker <:+: s := by
    intro h
    exact hfence (List.IsInfix.trans (List.IsPrefix.isInfix (by decide)) h)
  have h0 : findFrom s pyMarker 0 = none := by
    apply findFrom_eq_none
    intro m hm
    cases hmatch : pyMarker.isPrefixOf (s.drop m) with
    | false => rfl
    | true => exact absurd ((infix_iff_match pyMarker s).mpr ⟨m, hmatch⟩) hpy
  have h1 : findFrom s fenceStr 0 = none := by
    apply findFrom_eq_none
    intro m hm
    cases hmatch : fenceStr.isPrefixOf (s.drop m) with
    | false => rfl
    | true => exact absurd ((infix_iff_match fenceStr s).mpr ⟨m, hmatch⟩) hfence
  simp only [extractScript, h0, h1]

/-- C5 (amended): a response holding a `python`-tagged fence yields the
text between `"```python"` and the next fence (or to the end when no
fence closes it), stripped of surrounding whitespace; with no
`python`-tagged fence, the text after the first `"```"` up to the next
fence is taken, so a non-`python` language tag is left inside the program
text; with no fence markers at all, the raw response is used verbatim.
The backtick-free side conditions pin down which fences are the first
ones the scan meets. -/
theorem C5_fence_extraction :
    (∀ a b c : Str, (∀ ch ∈ a, ch ≠ tick) → (∀ ch ∈ b, ch ≠ tick) →
        extractScript (a ++ pyMarker ++ b ++ fenceStr ++ c) = pyStrip b) ∧
      (∀ a b : Str, (∀ ch ∈ a, ch ≠ tick) → (∀ ch ∈ b, ch ≠ tick) →
        extractScript (a ++ pyMarker ++ b) = pyStrip b) ∧
      (∀ a b c : Str, (∀ ch ∈ a, ch ≠ tick) → (∀ ch ∈ b, ch ≠ tick) →
        ¬ pyMarker <:+: (a ++ fenceStr ++ b ++ fenceStr ++ c) →
        extractScript (a ++ fenceStr ++ b ++ fenceStr ++ c) = pyStrip b) ∧
      (∀ s : Str, ¬ fenceStr <:+: s → extractScript s = s) :=
  ⟨extract_python_closed, extract_python_unclosed, extract_generic_closed, extract_verbatim⟩

/-- Witness for C5: concrete instances of all four branches. -/
theorem C5_fence_extraction_witness :
    extractScript (str "Sure:\n" ++ pyMarker ++ str "\nx = 1\n" ++ fenceStr ++ str "\ndone") =
        str "x = 1" ∧
      extractScript (str "Sure:\n" ++ pyMarker ++ str "\ny = 2\n") = str "y = 2" ∧
      extractScript (str "Reply:\n" ++ fenceStr ++ str "r\nz = 3\n" ++ fenceStr ++ str ".") =
        str "r\nz = 3" ∧
      extractScript (str "no fences here") = str "no fences here" := by
  refine ⟨?_, ?_, ?_, ?_⟩
  · rw [C5_fence_extraction.1 (str "Sure:\n") (str "\nx = 1\n") (str "\ndone")
      (by decide) (by decide)]
    decide
  · rw [C5_fence_extraction.2.1 (str "Sure:\n") (str "\ny = 2\n") (by decide) (by decide)]
    decide
  · rw [C5_fence_extraction.2.2.1 (str "Reply:\n") (str "r\nz = 3\n") (str ".")
      (by decide) (by decide) (by decide)]
    decide
  · exact C5_fence_extraction.2.2.2 (str "no fences here") (by decide)

end VizAgent
